import Mathlib

/-!
Verification development for a small interactive RPN calculator
(`src/main.rs`).  The program keeps an operand stack of `f32` values
(`type Number = f32`), classifies each trimmed input line as a command,
an operator, or a number, and applies operators to the stack with typed
error results.

Embedding conventions:

* The Rust `Vec<Number>` operand stack is modelled as a `List FP` whose
  HEAD is the top of the stack (the tail of the `Vec`).  `Vec::push`
  becomes list cons, `Vec::pop` removes the head.
* `f32` is modelled by the inductive type `FP`: NaN, signed infinities,
  signed zeros, and nonzero finite values carried as exact rationals.
  Arithmetic follows IEEE-754 special-value rules (NaN propagation,
  signed zeros, infinities); rounding of finite results to `f32`
  precision is not modelled — every claim checked here depends only on
  special-value behaviour or on small integer values where `f32`
  arithmetic is exact.
* Fallible operations return `Except` / `Option`, mirroring Rust's
  `Result` / `Option`.
-/

set_option autoImplicit false

deriving instance DecidableEq for Except

namespace RPN

/-- Model of the `f32` operand type (`type Number = f32` in the source):
NaN, infinities and zeros with a sign bit (`true` = negative), and
nonzero finite values as exact rationals. -/
inductive FP where
  | nan : FP
  | inf : Bool → FP
  | zero : Bool → FP
  | fin : ℚ → FP
deriving DecidableEq

/-- IEEE-754 `==` on `f32` values: NaN compares unequal to everything
(itself included), `-0.0 == 0.0`, finite values compare by value. -/
def fbeq : FP → FP → Bool
  | FP.nan, _ => false
  | _, FP.nan => false
  | FP.inf s, FP.inf t => s == t
  | FP.zero _, FP.zero _ => true
  | FP.zero _, FP.fin q => decide (q = 0)
  | FP.fin p, FP.zero _ => decide (p = 0)
  | FP.fin p, FP.fin q => decide (p = q)
  | _, _ => false

/-- IEEE-754 `f32` negation: flips the sign bit, `-NaN` stays NaN. -/
def fneg : FP → FP
  | FP.nan => FP.nan
  | FP.inf s => FP.inf (!s)
  | FP.zero s => FP.zero (!s)
  | FP.fin q => FP.fin (-q)

/-- IEEE-754 `f32` addition (round-to-nearest sign conventions for zero
results: `x + (-x) = +0.0`, `-0.0 + -0.0 = -0.0`); finite values are
added exactly. -/
def fadd : FP → FP → FP
  | FP.nan, _ => FP.nan
  | _, FP.nan => FP.nan
  | FP.inf s, FP.inf t => if s = t then FP.inf s else FP.nan
  | FP.inf s, _ => FP.inf s
  | _, FP.inf t => FP.inf t
  | FP.zero s, FP.zero t => FP.zero (s && t)
  | FP.zero _, FP.fin q => FP.fin q
  | FP.fin p, FP.zero _ => FP.fin p
  | FP.fin p, FP.fin q => if p + q = 0 then FP.zero false else FP.fin (p + q)

/-- IEEE-754 `f32` subtraction, `a - b = a + (-b)` (exact for every
special-value combination, including signed zeros). -/
def fsub (a b : FP) : FP :=
  fadd a (fneg b)

/-- IEEE-754 `f32` multiplication: `inf * 0` is NaN, signs multiply by
xor; finite values are multiplied exactly. -/
def fmul : FP → FP → FP
  | FP.nan, _ => FP.nan
  | _, FP.nan => FP.nan
  | FP.inf s, FP.inf t => FP.inf (xor s t)
  | FP.inf _, FP.zero _ => FP.nan
  | FP.zero _, FP.inf _ => FP.nan
  | FP.inf s, FP.fin q => FP.inf (xor s (decide (q < 0)))
  | FP.fin p, FP.inf t => FP.inf (xor (decide (p < 0)) t)
  | FP.zero s, FP.zero t => FP.zero (xor s t)
  | FP.zero s, FP.fin q => FP.zero (xor s (decide (q < 0)))
  | FP.fin p, FP.zero t => FP.zero (xor (decide (p < 0)) t)
  | FP.fin p, FP.fin q =>
      if p * q = 0 then FP.zero (xor (decide (p < 0)) (decide (q < 0)))
      else FP.fin (p * q)

/-- IEEE-754 `f32` division: `0/0` and `inf/inf` are NaN, division by
zero gives a signed infinity, division by infinity a signed zero;
finite quotients are exact. -/
def fdiv : FP → FP → FP
  | FP.nan, _ => FP.nan
  | _, FP.nan => FP.nan
  | FP.inf _, FP.inf _ => FP.nan
  | FP.inf s, FP.zero t => FP.inf (xor s t)
  | FP.inf s, FP.fin q => FP.inf (xor s (decide (q < 0)))
  | FP.zero s, FP.inf t => FP.zero (xor s t)
  | FP.fin p, FP.inf t => FP.zero (xor (decide (p < 0)) t)
  | FP.zero _, FP.zero _ => FP.nan
  | FP.zero s, FP.fin q => FP.zero (xor s (decide (q < 0)))
  | FP.fin p, FP.zero t => FP.inf (xor (decide (p < 0)) t)
  | FP.fin p, FP.fin q =>
      if q = 0 then FP.inf (xor (decide (p < 0)) true)
      else if p / q = 0 then FP.zero (xor (decide (p < 0)) (decide (q < 0)))
      else FP.fin (p / q)

/-- Truncation toward zero of a rational, used by the float remainder. -/
def qtrunc (x : ℚ) : ℤ :=
  if 0 ≤ x then ⌊x⌋ else ⌈x⌉

/-- Rust `%` on `f32` (C `fmod`): remainder `a - b * trunc(a / b)` with
the sign of the dividend; NaN when the divisor is zero or the dividend
infinite; `a % inf = a` for finite `a`. -/
def fmod : FP → FP → FP
  | FP.nan, _ => FP.nan
  | _, FP.nan => FP.nan
  | FP.inf _, _ => FP.nan
  | FP.zero s, FP.inf _ => FP.zero s
  | FP.fin p, FP.inf _ => FP.fin p
  | FP.zero _, FP.zero _ => FP.nan
  | FP.fin _, FP.zero _ => FP.nan
  | FP.zero s, FP.fin _ => FP.zero s
  | FP.fin p, FP.fin q =>
      if q = 0 then FP.nan
      else
        let r := p - q * (qtrunc (p / q) : ℚ)
        if r = 0 then FP.zero (decide (p < 0)) else FP.fin r

/-- `enum OperatorError`: why an operator application failed. -/
inductive OperatorError where
  | DivideByZero : OperatorError
  | ModuloByZero : OperatorError
  | NotEnoughOperands : OperatorError
deriving DecidableEq

/-- `enum Commands`: the application-level commands. -/
inductive Commands where
  | Quit : Commands
  | Pop : Commands
  | Show : Commands
  | Clear : Commands
  | Help : Commands
deriving DecidableEq

/-- `Adder::apply`: pops `a` (the top) and `b`, pushes and returns
`a + b`.  The source first checks `operand_stack.len() < 2` and returns
`NotEnoughOperands` without popping; the catch-all branch renders that
check (the stack has fewer than two elements exactly when it does not
match `a :: b :: rest`). -/
def Adder.apply : List FP → Except OperatorError FP × List FP
  | a :: b :: rest =>
      let answer := fadd a b
      (Except.ok answer, answer :: rest)
  | st => (Except.error OperatorError.NotEnoughOperands, st)

/-- `Subtractor::apply`, a `match` on `operand_stack.len()`: on an empty
stack `NotEnoughOperands`; on a one-element stack pop `b`, push and
return `-b`; otherwise pop `b` (the top) then `a`, push and return
`a - b`. -/
def Subtractor.apply : List FP → Except OperatorError FP × List FP
  | [] => (Except.error OperatorError.NotEnoughOperands, [])
  | [b] =>
      let answer := fneg b
      (Except.ok answer, [answer])
  | b :: a :: rest =>
      let answer := fsub a b
      (Except.ok answer, answer :: rest)

/-- `Multiplier::apply`: pops `a` (the top) and `b`, pushes and returns
`a * b`; `NotEnoughOperands` when the length check `len < 2` fires
(the catch-all branch). -/
def Multiplier.apply : List FP → Except OperatorError FP × List FP
  | a :: b :: rest =>
      let answer := fmul a b
      (Except.ok answer, answer :: rest)
  | st => (Except.error OperatorError.NotEnoughOperands, st)

/-- `Divider::apply`: after the `len < 2` check (the catch-all branch),
pops `b` (the top) then `a`; if `b == 0.0` it pushes `a` back, pushes
`b` back and fails with `DivideByZero` (so the stack `b :: a :: rest`
is restored exactly); otherwise pushes and returns `a / b`. -/
def Divider.apply : List FP → Except OperatorError FP × List FP
  | b :: a :: rest =>
      if fbeq b (FP.zero false) then
        (Except.error OperatorError.DivideByZero, b :: a :: rest)
      else
        let answer := fdiv a b
        (Except.ok answer, answer :: rest)
  | st => (Except.error OperatorError.NotEnoughOperands, st)

/-- `Modulator::apply`: after the `len < 2` check (the catch-all
branch), pops `b` (the top) then `a`; if `b == 0.0` it pushes `a` back,
pushes `b` back and fails with `ModuloByZero`; otherwise pushes and
returns `a % b`. -/
def Modulator.apply : List FP → Except OperatorError FP × List FP
  | b :: a :: rest =>
      if fbeq b (FP.zero false) then
        (Except.error OperatorError.ModuloByZero, b :: a :: rest)
      else
        let answer := fmod a b
        (Except.ok answer, answer :: rest)
  | st => (Except.error OperatorError.NotEnoughOperands, st)

/-- The closed set of operators behind `Box<dyn Operator>`: the source
has one unit struct per arithmetic rule; this tags which one was
constructed by `try_get_operator`. -/
inductive Op where
  | Adder : Op
  | Subtractor : Op
  | Multiplier : Op
  | Divider : Op
  | Modulator : Op
deriving DecidableEq

/-- Dynamic dispatch of `Operator::apply` to the concrete operator. -/
def Op.apply : Op → List FP → Except OperatorError FP × List FP
  | Op.Adder, st => Adder.apply st
  | Op.Subtractor, st => Subtractor.apply st
  | Op.Multiplier, st => Multiplier.apply st
  | Op.Divider, st => Divider.apply st
  | Op.Modulator, st => Modulator.apply st

/-- Rust `str::trim` (standard library, outside this repository):
removes leading and trailing whitespace characters.  Implemented over
the character list so that it evaluates in the kernel. -/
def strTrim (s : String) : String :=
  String.mk
    (((s.toList.dropWhile Char.isWhitespace).reverse.dropWhile
      Char.isWhitespace).reverse)

/-- `try_get_command`: exact match of the trimmed string against the
five command strings (the Rust `match str.trim()` literal arms, rendered
as an equality chain). -/
def try_get_command (str : String) : Option Commands :=
  if strTrim str = "q" then some Commands.Quit
  else if strTrim str = "p" then some Commands.Pop
  else if strTrim str = "c" then some Commands.Clear
  else if strTrim str = "s" then some Commands.Show
  else if strTrim str = "?" then some Commands.Help
  else none

/-- `try_get_operator`: exact match of the trimmed string against the
five operator strings, yielding the boxed operator it constructs (the
Rust `match str.trim()` literal arms, rendered as an equality chain). -/
def try_get_operator (str : String) : Option Op :=
  if strTrim str = "+" then some Op.Adder
  else if strTrim str = "-" then some Op.Subtractor
  else if strTrim str = "*" then some Op.Multiplier
  else if strTrim str = "/" then some Op.Divider
  else if strTrim str = "%" then some Op.Modulator
  else none

/-- Leading sign of a numeric literal: `-` sets the sign flag, `+` is
consumed without setting it, anything else leaves the input unread. -/
def parseSign : List Char → Bool × List Char
  | '-' :: cs => (true, cs)
  | '+' :: cs => (false, cs)
  | cs => (false, cs)

/-- Value of a digit string, most significant digit first. -/
def digitsToNat (ds : List Char) : ℕ :=
  ds.foldl (fun n c => 10 * n + (c.toNat - '0'.toNat)) 0

/-- The case-insensitive special forms of the `f32` grammar: `inf`,
`infinity` (signed infinities) and `nan`. -/
def parseSpecial (sign : Bool) (cs : List Char) : Option FP :=
  let l := cs.map Char.toLower
  if l = "inf".toList ∨ l = "infinity".toList then some (FP.inf sign)
  else if l = "nan".toList then some FP.nan
  else none

/-- Optional exponent suffix `('e'|'E') Sign? Digit+`; the whole rest of
the input must be consumed.  Returns the signed decimal exponent, `0`
when absent. -/
def parseExp : List Char → Option ℤ
  | [] => some 0
  | c :: r =>
      if c = 'e' ∨ c = 'E' then
        let sc := parseSign r
        let p := sc.2.span Char.isDigit
        if p.1 = [] ∨ p.2 ≠ [] then none
        else some (if sc.1 then -(digitsToNat p.1 : ℤ) else (digitsToNat p.1 : ℤ))
      else none

/-- `10 ^ e` as a rational, for a signed decimal exponent. -/
def pow10 (e : ℤ) : ℚ :=
  if 0 ≤ e then (10 : ℚ) ^ e.toNat else 1 / (10 : ℚ) ^ (-e).toNat

/-- The `f32` value `± m * 10^(-k) * 10^e` denoted by a finite decimal
literal with mantissa digits of value `m`, `k` of them after the dot,
and decimal exponent `e`.  The value is taken exactly (rounding to
`f32` precision is not modelled); a zero value yields the signed
zero. -/
def mkFinite (sign : Bool) (m : ℕ) (k : ℕ) (e : ℤ) : FP :=
  let v : ℚ := (m : ℚ) * pow10 (-(k : ℤ)) * pow10 e
  if v = 0 then FP.zero sign else FP.fin (if sign then -v else v)

/-- The finite part of the `f32` grammar after the optional sign:
`Digit+ ('.' Digit*)? Exp?` or `Digit* '.' Digit+ Exp?` — at least one
mantissa digit, optional fraction dot, optional exponent. -/
def parseMantissa (sign : Bool) (cs : List Char) : Option FP :=
  let p1 := cs.span Char.isDigit
  let p2 : List Char × List Char :=
    match p1.2 with
    | '.' :: r => r.span Char.isDigit
    | _ => ([], p1.2)
  if p1.1 = [] ∧ p2.1 = [] then none
  else
    match parseExp p2.2 with
    | none => none
    | some e =>
        some (mkFinite sign (digitsToNat (p1.1 ++ p2.1)) p2.1.length e)

/-- Modelled from the spec: `try_get_number` is
`str.trim().parse::<f32>().ok()`, and the `f32 : FromStr` parser lives
in the Rust standard library, outside this repository.  This follows
the documented `f32::from_str` grammar
`Sign? ( 'inf' | 'infinity' | 'nan' | Number )` (special forms matched
case-insensitively), with the finite mantissa/exponent value taken as
an exact rational. -/
def parseF32 (s : String) : Option FP :=
  let sc := parseSign s.toList
  match parseSpecial sc.1 sc.2 with
  | some v => some v
  | none => parseMantissa sc.1 sc.2

/-- `try_get_number`: parse the trimmed string as an `f32`. -/
def try_get_number (str : String) : Option FP :=
  parseF32 (strTrim str)

/-- What one iteration of the `main` loop does, beyond mutating the
stack: which branch ran and what it reported. -/
inductive Outcome where
  | CommandQuit : Outcome
  | CommandPopped : Option FP → Outcome
  | CommandShown : List FP → Outcome
  | CommandCleared : List FP → Outcome
  | CommandHelp : Outcome
  | OperatorResult : Except OperatorError FP → Outcome
  | NumberPushed : FP → Outcome
  | Invalid : Outcome
deriving DecidableEq

/-- One iteration of the `main` loop body on a non-empty line: try the
command lookup first, then the operator lookup (applying the operator
to the stack), then the number parse (pushing the number), and report
invalid input when all three fail.  `Pop` pops and reports the top (or
reports emptiness), `Clear` reports the pre-clear stack then empties
it, `Show` reports the stack, `Quit` and `Help` leave it alone. -/
def process_line (operand_stack : List FP) (line : String) :
    Outcome × List FP :=
  match try_get_command line with
  | some Commands.Help => (Outcome.CommandHelp, operand_stack)
  | some Commands.Quit => (Outcome.CommandQuit, operand_stack)
  | some Commands.Pop =>
      match operand_stack with
      | number :: rest => (Outcome.CommandPopped (some number), rest)
      | [] => (Outcome.CommandPopped none, [])
  | some Commands.Clear => (Outcome.CommandCleared operand_stack, [])
  | some Commands.Show => (Outcome.CommandShown operand_stack, operand_stack)
  | none =>
      match try_get_operator line with
      | some operation =>
          let r := operation.apply operand_stack
          (Outcome.OperatorResult r.1, r.2)
      | none =>
          match try_get_number line with
          | some number => (Outcome.NumberPushed number, number :: operand_stack)
          | none => (Outcome.Invalid, operand_stack)

/-- Run a sequence of input lines from the empty starting stack,
keeping only the stack (the `loop` in `main`, ignoring printing). -/
def run (lines : List String) : List FP :=
  lines.foldl (fun st s => (process_line st s).2) []

/-- Declared operand count of an operator on a given stack, from the
spec's operator table: 2 for Add, Multiply, Divide and Modulo; for
Subtract, 1 on a one-element stack and 2 otherwise. -/
def Op.consumes : Op → List FP → ℕ
  | Op.Subtractor, [_] => 1
  | _, _ => 2

/-- Whether the outcome of a loop iteration came from the command
branch. -/
def Outcome.isCommand : Outcome → Bool
  | Outcome.CommandQuit => true
  | Outcome.CommandPopped _ => true
  | Outcome.CommandShown _ => true
  | Outcome.CommandCleared _ => true
  | Outcome.CommandHelp => true
  | _ => false

/-- Whether the outcome of a loop iteration came from the operator
branch. -/
def Outcome.isOperatorResult : Outcome → Bool
  | Outcome.OperatorResult _ => true
  | _ => false

/-- Whether the outcome of a loop iteration came from the number
branch. -/
def Outcome.isNumberPushed : Outcome → Bool
  | Outcome.NumberPushed _ => true
  | _ => false

end RPN

namespace RPN

/-- Commutativity of the modelled `f32` addition. -/
theorem fadd_comm (a b : FP) : fadd a b = fadd b a := by
  cases a with
  | nan => cases b <;> rfl
  | inf s =>
    cases b with
    | nan => rfl
    | inf t => cases s <;> cases t <;> rfl
    | zero t => rfl
    | fin q => rfl
  | zero s =>
    cases b with
    | nan => rfl
    | inf t => rfl
    | zero t => cases s <;> cases t <;> rfl
    | fin q => rfl
  | fin p =>
    cases b with
    | nan => rfl
    | inf t => rfl
    | zero t => rfl
    | fin q => simp only [fadd]; rw [add_comm]

/-- Commutativity of the modelled `f32` multiplication. -/
theorem fmul_comm (a b : FP) : fmul a b = fmul b a := by
  cases a with
  | nan => cases b <;> rfl
  | inf s =>
    cases b with
    | nan => rfl
    | inf t => cases s <;> cases t <;> rfl
    | zero t => rfl
    | fin q => simp only [fmul]; rw [Bool.xor_comm]
  | zero s =>
    cases b with
    | nan => rfl
    | inf t => rfl
    | zero t => cases s <;> cases t <;> rfl
    | fin q => simp only [fmul]; rw [Bool.xor_comm]
  | fin p =>
    cases b with
    | nan => rfl
    | inf t => simp only [fmul]; rw [Bool.xor_comm]
    | zero t => simp only [fmul]; rw [Bool.xor_comm]
    | fin q => simp only [fmul]; rw [mul_comm, Bool.xor_comm]

/-- Dividing anything by NaN yields NaN. -/
theorem fdiv_nan (a : FP) : fdiv a FP.nan = FP.nan := by
  cases a <;> rfl

/-- The remainder of anything by NaN is NaN. -/
theorem fmod_nan (a : FP) : fmod a FP.nan = FP.nan := by
  cases a <;> rfl

/-- C1: on a stack of length at least 2 whose top element compares
equal to `0.0` under float equality, `Divide` fails with
`DivideByZero`, `Modulo` fails with `ModuloByZero`, and in both cases
the stack after the failed apply is exactly the stack before the
call. -/
theorem c1_divide_modulo_by_zero_restores (b a : FP) (rest : List FP)
    (h : fbeq b (FP.zero false) = true) :
    Divider.apply (b :: a :: rest) =
      (Except.error OperatorError.DivideByZero, b :: a :: rest) ∧
    Modulator.apply (b :: a :: rest) =
      (Except.error OperatorError.ModuloByZero, b :: a :: rest) := by
  constructor <;> simp [Divider.apply, Modulator.apply, h]

/-- Witness for C1 at the spec's example stack `[5.0, 0.0]`. -/
theorem c1_witness :
    Divider.apply [FP.zero false, FP.fin 5] =
      (Except.error OperatorError.DivideByZero,
        [FP.zero false, FP.fin 5]) ∧
    Modulator.apply [FP.zero false, FP.fin 5] =
      (Except.error OperatorError.ModuloByZero,
        [FP.zero false, FP.fin 5]) :=
  c1_divide_modulo_by_zero_restores (FP.zero false) (FP.fin 5) [] rfl

/-- C2: on a stack of length less than 2, `Add`, `Multiply`, `Divide`
and `Modulo` fail with `NotEnoughOperands` and leave the stack
unmutated; `Subtract` does the same on the empty stack. -/
theorem c2_not_enough_operands_no_mutation (st : List FP)
    (h : st.length < 2) :
    Adder.apply st = (Except.error OperatorError.NotEnoughOperands, st) ∧
    Multiplier.apply st = (Except.error OperatorError.NotEnoughOperands, st) ∧
    Divider.apply st = (Except.error OperatorError.NotEnoughOperands, st) ∧
    Modulator.apply st = (Except.error OperatorError.NotEnoughOperands, st) ∧
    (st = [] →
      Subtractor.apply st = (Except.error OperatorError.NotEnoughOperands, st)) := by
  cases st with
  | nil => exact ⟨rfl, rfl, rfl, rfl, fun _ => rfl⟩
  | cons x t =>
    cases t with
    | nil => exact ⟨rfl, rfl, rfl, rfl, fun hc => by cases hc⟩
    | cons y t2 =>
      exfalso
      simp only [List.length_cons] at h
      omega

/-- Witness for C2 on the empty stack. -/
theorem c2_witness :
    Subtractor.apply ([] : List FP) =
      (Except.error OperatorError.NotEnoughOperands, []) :=
  (c2_not_enough_operands_no_mutation [] (by decide)).2.2.2.2 rfl

/-- C4: `Subtract` on a one-element stack `[b]` succeeds with `-b` and
leaves `[-b]`; on a stack with `b` on top of `a`, it succeeds with
`a - b`, replacing both by the result; pushing `3` then `2` then
subtracting yields `1`, and pushing `2` then `3` then subtracting
yields `-1`. -/
theorem c4_subtract_unary_and_binary :
    (∀ b : FP, Subtractor.apply [b] = (Except.ok (fneg b), [fneg b])) ∧
    (∀ (a b : FP) (rest : List FP),
      Subtractor.apply (b :: a :: rest) =
        (Except.ok (fsub a b), fsub a b :: rest)) ∧
    process_line (run ["3", "2"]) "-" =
      (Outcome.OperatorResult (Except.ok (FP.fin 1)), [FP.fin 1]) ∧
    process_line (run ["2", "3"]) "-" =
      (Outcome.OperatorResult (Except.ok (FP.fin (-1))), [FP.fin (-1)]) := by
  have b2 : mkFinite false 2 0 0 = FP.fin 2 := by norm_num [mkFinite, pow10]
  have b3 : mkFinite false 3 0 0 = FP.fin 3 := by norm_num [mkFinite, pow10]
  have s32 : fsub (FP.fin 3) (FP.fin 2) = FP.fin 1 := by
    norm_num [fsub, fneg, fadd]
  have s23 : fsub (FP.fin 2) (FP.fin 3) = FP.fin (-1) := by
    norm_num [fsub, fneg, fadd]
  have t32 : run ["3", "2"] = [FP.fin 2, FP.fin 3] := by
    rw [← b2, ← b3]; rfl
  have t23 : run ["2", "3"] = [FP.fin 3, FP.fin 2] := by
    rw [← b2, ← b3]; rfl
  refine ⟨fun b => rfl, fun a b rest => rfl, ?_, ?_⟩
  · rw [t32, ← s32]; rfl
  · rw [t23, ← s23]; rfl

/-- C7: the result of `Add` is unchanged when the two topmost operands
are swapped, and likewise for `Multiply` (commutativity in result
value); the whole outcome, stack included, agrees. -/
theorem c7_add_multiply_commutative (a b : FP) (rest : List FP) :
    Adder.apply (b :: a :: rest) = Adder.apply (a :: b :: rest) ∧
    Multiplier.apply (b :: a :: rest) = Multiplier.apply (a :: b :: rest) := by
  constructor
  · simp only [Adder.apply]; rw [fadd_comm]
  · simp only [Multiplier.apply]; rw [fmul_comm]

/-- C9: the divisor check is float equality with `0.0`, so a negative
zero on top also triggers `DivideByZero` / `ModuloByZero` (stack
restored), while a NaN on top does not: `Divide` and `Modulo` then
succeed and return NaN. -/
theorem c9_negative_zero_fails_nan_succeeds (a : FP) (rest : List FP) :
    Divider.apply (FP.zero true :: a :: rest) =
      (Except.error OperatorError.DivideByZero,
        FP.zero true :: a :: rest) ∧
    Modulator.apply (FP.zero true :: a :: rest) =
      (Except.error OperatorError.ModuloByZero,
        FP.zero true :: a :: rest) ∧
    Divider.apply (FP.nan :: a :: rest) =
      (Except.ok FP.nan, FP.nan :: rest) ∧
    Modulator.apply (FP.nan :: a :: rest) =
      (Except.ok FP.nan, FP.nan :: rest) := by
  refine ⟨rfl, rfl, ?_, ?_⟩
  · simp [Divider.apply, fbeq, fdiv_nan]
  · simp [Modulator.apply, fbeq, fmod_nan]

end RPN

namespace RPN

/-- C3: whenever an operator application succeeds, the new stack is the
returned value on top of the old stack with exactly the declared
operand count removed — so the operator consumed its declared operands,
pushed exactly one result, left everything below unchanged and in
order, and the new top equals the returned value. -/
theorem c3_success_frame (o : Op) (st st2 : List FP) (r : FP)
    (h : o.apply st = (Except.ok r, st2)) :
    st2 = r :: st.drop (o.consumes st) := by
  cases o <;> rcases st with _ | ⟨x, _ | ⟨y, t⟩⟩
  · exact absurd h (by simp [Op.apply, Adder.apply])
  · exact absurd h (by simp [Op.apply, Adder.apply])
  · simp only [Op.apply, Adder.apply, Prod.mk.injEq, Except.ok.injEq] at h
    obtain ⟨h1, h2⟩ := h
    subst h1; subst h2
    simp [Op.consumes]
  · exact absurd h (by simp [Op.apply, Subtractor.apply])
  · simp only [Op.apply, Subtractor.apply, Prod.mk.injEq, Except.ok.injEq] at h
    obtain ⟨h1, h2⟩ := h
    subst h1; subst h2
    simp [Op.consumes]
  · simp only [Op.apply, Subtractor.apply, Prod.mk.injEq, Except.ok.injEq] at h
    obtain ⟨h1, h2⟩ := h
    subst h1; subst h2
    simp [Op.consumes]
  · exact absurd h (by simp [Op.apply, Multiplier.apply])
  · exact absurd h (by simp [Op.apply, Multiplier.apply])
  · simp only [Op.apply, Multiplier.apply, Prod.mk.injEq, Except.ok.injEq] at h
    obtain ⟨h1, h2⟩ := h
    subst h1; subst h2
    simp [Op.consumes]
  · exact absurd h (by simp [Op.apply, Divider.apply])
  · exact absurd h (by simp [Op.apply, Divider.apply])
  · simp only [Op.apply, Divider.apply] at h
    split at h
    · exact absurd h (by simp)
    · simp only [Prod.mk.injEq, Except.ok.injEq] at h
      obtain ⟨h1, h2⟩ := h
      subst h1; subst h2
      simp [Op.consumes]
  · exact absurd h (by simp [Op.apply, Modulator.apply])
  · exact absurd h (by simp [Op.apply, Modulator.apply])
  · simp only [Op.apply, Modulator.apply] at h
    split at h
    · exact absurd h (by simp)
    · simp only [Prod.mk.injEq, Except.ok.injEq] at h
      obtain ⟨h1, h2⟩ := h
      subst h1; subst h2
      simp [Op.consumes]

/-- Witness for C3: `Subtract` on the one-element stack `[NaN]`. -/
theorem c3_witness :
    [FP.nan] = FP.nan :: List.drop (Op.Subtractor.consumes [FP.nan]) [FP.nan] :=
  c3_success_frame Op.Subtractor [FP.nan] [FP.nan] FP.nan rfl

/-- A string that parses as a number is not a command token: the five
command strings all fail the number parse. -/
theorem try_get_command_eq_none_of_number (s : String) (n : FP)
    (h : try_get_number s = some n) : try_get_command s = none := by
  have hp : parseF32 (strTrim s) = some n := h
  unfold try_get_command
  split_ifs with h1 h2 h3 h4 h5
  · rw [h1, show parseF32 "q" = none from rfl] at hp
    exact Option.noConfusion hp
  · rw [h2, show parseF32 "p" = none from rfl] at hp
    exact Option.noConfusion hp
  · rw [h3, show parseF32 "c" = none from rfl] at hp
    exact Option.noConfusion hp
  · rw [h4, show parseF32 "s" = none from rfl] at hp
    exact Option.noConfusion hp
  · rw [h5, show parseF32 "?" = none from rfl] at hp
    exact Option.noConfusion hp
  · rfl

/-- A string that parses as a number is not an operator token: the five
operator strings all fail the number parse. -/
theorem try_get_operator_eq_none_of_number (s : String) (n : FP)
    (h : try_get_number s = some n) : try_get_operator s = none := by
  have hp : parseF32 (strTrim s) = some n := h
  unfold try_get_operator
  split_ifs with h1 h2 h3 h4 h5
  · rw [h1, show parseF32 "+" = none from rfl] at hp
    exact Option.noConfusion hp
  · rw [h2, show parseF32 "-" = none from rfl] at hp
    exact Option.noConfusion hp
  · rw [h3, show parseF32 "*" = none from rfl] at hp
    exact Option.noConfusion hp
  · rw [h4, show parseF32 "/" = none from rfl] at hp
    exact Option.noConfusion hp
  · rw [h5, show parseF32 "%" = none from rfl] at hp
    exact Option.noConfusion hp
  · rfl

/-- C5: classification tries the command lookup, then the operator
lookup, then the number parse, first success winning: a command token
is handled by the command branch (so never as operator or number), an
operator token by the operator branch (so never as a number), a number
token by the number branch, and a token matching none of the three is
Invalid with the stack unchanged. -/
theorem c5_classification_priority (st : List FP) (s : String) :
    ((try_get_command s).isSome →
      (process_line st s).1.isCommand = true ∧
      (process_line st s).1.isOperatorResult = false ∧
      (process_line st s).1.isNumberPushed = false) ∧
    (try_get_command s = none → (try_get_operator s).isSome →
      (process_line st s).1.isOperatorResult = true ∧
      (process_line st s).1.isNumberPushed = false) ∧
    (try_get_command s = none → try_get_operator s = none →
      (try_get_number s).isSome →
      (process_line st s).1.isNumberPushed = true) ∧
    (try_get_command s = none → try_get_operator s = none →
      try_get_number s = none →
      process_line st s = (Outcome.Invalid, st)) := by
  refine ⟨?_, ?_, ?_, ?_⟩
  · intro h
    obtain ⟨c, hc⟩ := Option.isSome_iff_exists.mp h
    cases c <;> cases st <;>
      simp [process_line, hc, Outcome.isCommand, Outcome.isOperatorResult,
        Outcome.isNumberPushed]
  · intro h1 h2
    obtain ⟨o, ho⟩ := Option.isSome_iff_exists.mp h2
    simp [process_line, h1, ho, Outcome.isOperatorResult,
      Outcome.isNumberPushed]
  · intro h1 h2 h3
    obtain ⟨n, hn⟩ := Option.isSome_iff_exists.mp h3
    simp [process_line, h1, h2, hn, Outcome.isNumberPushed]
  · intro h1 h2 h3
    simp [process_line, h1, h2, h3]

/-- Witness for C5 at the tokens `"q"`, `"/"`, `"inf"` and `"xyz"`. -/
theorem c5_witness :
    ((process_line [] "q").1.isCommand = true ∧
      (process_line [] "q").1.isOperatorResult = false ∧
      (process_line [] "q").1.isNumberPushed = false) ∧
    ((process_line [] "/").1.isOperatorResult = true ∧
      (process_line [] "/").1.isNumberPushed = false) ∧
    (process_line [] "inf").1.isNumberPushed = true ∧
    process_line [] "xyz" = (Outcome.Invalid, []) :=
  ⟨(c5_classification_priority [] "q").1 (by decide),
   (c5_classification_priority [] "/").2.1 (by decide) (by decide),
   (c5_classification_priority [] "inf").2.2.1 (by decide) (by decide)
     (by decide),
   (c5_classification_priority [] "xyz").2.2.2 (by decide) (by decide)
     (by decide)⟩

/-- C6: processing `["3", "4", "+", "2", "*"]` from the empty stack
leaves the final stack `[14.0]`. -/
theorem c6_end_to_end : run ["3", "4", "+", "2", "*"] = [FP.fin 14] := by
  have b3 : mkFinite false 3 0 0 = FP.fin 3 := by norm_num [mkFinite, pow10]
  have b4 : mkFinite false 4 0 0 = FP.fin 4 := by norm_num [mkFinite, pow10]
  have b2 : mkFinite false 2 0 0 = FP.fin 2 := by norm_num [mkFinite, pow10]
  have a43 : fadd (FP.fin 4) (FP.fin 3) = FP.fin 7 := by norm_num [fadd]
  have m27 : fmul (FP.fin 2) (FP.fin 7) = FP.fin 14 := by norm_num [fmul]
  have s1 : (process_line [] "3").2 = [FP.fin 3] := by rw [← b3]; rfl
  have s2 : (process_line [FP.fin 3] "4").2 = [FP.fin 4, FP.fin 3] := by
    rw [← b4]; rfl
  have s3 : (process_line [FP.fin 4, FP.fin 3] "+").2 = [FP.fin 7] := by
    rw [← a43]; rfl
  have s4 : (process_line [FP.fin 7] "2").2 = [FP.fin 2, FP.fin 7] := by
    rw [← b2]; rfl
  have s5 : (process_line [FP.fin 2, FP.fin 7] "*").2 = [FP.fin 14] := by
    rw [← m27]; rfl
  show (process_line (process_line (process_line (process_line
    (process_line [] "3").2 "4").2 "+").2 "2").2 "*").2 = [FP.fin 14]
  rw [s1, s2, s3, s4, s5]

/-- C8: a token classified as the number `n` is pushed (above the
untouched stack), and a subsequent `p` (Pop) command returns exactly
`n` and leaves the rest of the stack unchanged. -/
theorem c8_push_pop_roundtrip (st : List FP) (s : String) (n : FP)
    (h : try_get_number s = some n) :
    process_line st s = (Outcome.NumberPushed n, n :: st) ∧
    process_line (n :: st) "p" = (Outcome.CommandPopped (some n), st) := by
  have h1 := try_get_command_eq_none_of_number s n h
  have h2 := try_get_operator_eq_none_of_number s n h
  constructor
  · simp [process_line, h1, h2, h]
  · rfl

/-- Witness for C8 at the number token `"inf"`. -/
theorem c8_witness :
    process_line [] "inf" =
      (Outcome.NumberPushed (FP.inf false), [FP.inf false]) ∧
    process_line [FP.inf false] "p" =
      (Outcome.CommandPopped (some (FP.inf false)), []) :=
  c8_push_pop_roundtrip [] "inf" (FP.inf false) rfl

/-- C10: the number recognizer follows the full `f32` textual grammar,
so the non-literal tokens `"inf"`, `"-inf"` and `"NaN"` classify as
numbers and push the corresponding non-finite values. -/
theorem c10_nonfinite_tokens_are_numbers (st : List FP) :
    try_get_number "inf" = some (FP.inf false) ∧
    try_get_number "-inf" = some (FP.inf true) ∧
    try_get_number "NaN" = some FP.nan ∧
    process_line st "inf" =
      (Outcome.NumberPushed (FP.inf false), FP.inf false :: st) ∧
    process_line st "-inf" =
      (Outcome.NumberPushed (FP.inf true), FP.inf true :: st) ∧
    process_line st "NaN" =
      (Outcome.NumberPushed FP.nan, FP.nan :: st) :=
  ⟨rfl, rfl, rfl, rfl, rfl, rfl⟩

end RPN
